import Mathlib

/-!
Verification of `src/utils.py` of the remote-diagnostics repository.

The source is a pandas/numpy pipeline.  Numeric cells are modelled by `RD.EF`:
an exact rational together with the two IEEE special classes the code can
actually produce and branch on, `nan` and signed infinity.  Rounding is
idealised away (rationals instead of binary64), but NaN/infinity propagation
of every operation used by the source (`+`, `-`, `*`, `/`, `abs`, comparisons,
`mean`, `var`, `std`, `nanmean`, `clip`, `fillna`) follows IEEE-754/numpy
semantics exactly.  `np.log` and the square root inside `pandas.Series.std`
are irrational on rationals, so they enter as an abstract parameter
(`RD.RealOps`); every theorem below holds for all instantiations, and no
claim depends on their numeric values (the source only branches on
finiteness/sign of their guarded inputs, never on the transcendental value).

A `pandas.DataFrame` is modelled by `RD.Table`: named columns and rows of
`EF` cells, with positional access.  `groupby(col, sort=False)` is modelled
by first-appearance order of the non-NaN keys, matching pandas (NaN group
keys are dropped by default).
-/

deriving instance DecidableEq for Except

namespace RD

/-! Rational arithmetic, written through `mkRat` so that every operation
reduces inside the kernel (the library `Rat.add`/`Rat.mul`/... are sealed
against unfolding).  The bridge lemmas right below prove each one equal to
the corresponding field operation of `ℚ`, so the development reasons with
ordinary rational arithmetic while closed theorems still evaluate. -/

/-- Kernel-reducible rational addition. -/
def qadd (a b : ℚ) : ℚ := Rat.divInt (a.num * b.den + b.num * a.den) (a.den * b.den)

/-- Kernel-reducible rational negation. -/
def qneg (a : ℚ) : ℚ := Rat.divInt (-a.num) a.den

/-- Kernel-reducible rational multiplication. -/
def qmul (a b : ℚ) : ℚ := Rat.divInt (a.num * b.num) (a.den * b.den)

/-- Kernel-reducible rational division (`a / 0 = 0`, as in `ℚ`). -/
def qdiv (a b : ℚ) : ℚ := Rat.divInt (a.num * b.den) (a.den * b.num)

/-- Kernel-reducible rational absolute value. -/
def qabs (a : ℚ) : ℚ := Rat.divInt (a.num.natAbs : Int) a.den

theorem qadd_eq (a b : ℚ) : qadd a b = a + b := by
  rw [qadd, Rat.divInt_eq_div]
  conv_rhs => rw [← Rat.num_div_den a, ← Rat.num_div_den b]
  have ha : (a.den : ℚ) ≠ 0 := by exact_mod_cast a.den_ne_zero
  have hb : (b.den : ℚ) ≠ 0 := by exact_mod_cast b.den_ne_zero
  field_simp

theorem qneg_eq (a : ℚ) : qneg a = -a := by
  rw [qneg, Rat.divInt_eq_div]
  conv_rhs => rw [← Rat.num_div_den a]
  have ha : (a.den : ℚ) ≠ 0 := by exact_mod_cast a.den_ne_zero
  field_simp

theorem qmul_eq (a b : ℚ) : qmul a b = a * b := by
  rw [qmul, Rat.divInt_eq_div]
  conv_rhs => rw [← Rat.num_div_den a, ← Rat.num_div_den b]
  have ha : (a.den : ℚ) ≠ 0 := by exact_mod_cast a.den_ne_zero
  have hb : (b.den : ℚ) ≠ 0 := by exact_mod_cast b.den_ne_zero
  field_simp

theorem qdiv_eq (a b : ℚ) : qdiv a b = a / b := by
  rcases eq_or_ne b.num 0 with hb | hb
  · have hb0 : b = 0 := Rat.num_eq_zero.mp hb
    subst hb0
    rw [qdiv, Rat.num_zero, mul_zero, Rat.divInt_zero, div_zero]
  · rw [qdiv, Rat.divInt_eq_div]
    conv_rhs => rw [← Rat.num_div_den a, ← Rat.num_div_den b]
    have ha : (a.den : ℚ) ≠ 0 := by exact_mod_cast a.den_ne_zero
    have hbd : (b.den : ℚ) ≠ 0 := by exact_mod_cast b.den_ne_zero
    have hbn : (b.num : ℚ) ≠ 0 := by exact_mod_cast hb
    field_simp

theorem qabs_eq (a : ℚ) : qabs a = |a| := by
  rw [qabs, Rat.divInt_eq_div]
  rcases le_or_lt 0 a.num with h | h
  · rw [Int.natAbs_of_nonneg h, abs_of_nonneg (Rat.num_nonneg.mp h)]
    push_cast
    exact Rat.num_div_den a
  · have h2 : a < 0 := by
      by_contra hc
      push_neg at hc
      exact absurd (Rat.num_nonneg.mpr hc) (by omega)
    rw [Int.ofNat_natAbs_of_nonpos h.le, abs_of_neg h2]
    push_cast
    rw [neg_div, Rat.num_div_den]

/-- Extended float value: exact rational, NaN, or a signed infinity
(`inf true` is +∞, `inf false` is −∞). -/
inductive EF where
  | nan : EF
  | inf : Bool → EF
  | fin : ℚ → EF
deriving DecidableEq

instance : Inhabited EF := ⟨EF.nan⟩

def EF.isNan : EF → Bool
  | .nan => true
  | _ => false

/-- `np.isfinite`. -/
def EF.isFinite : EF → Bool
  | .fin _ => true
  | _ => false

def EF.neg : EF → EF
  | .nan => .nan
  | .inf b => .inf (!b)
  | .fin q => .fin (qneg q)

/-- IEEE addition: NaN propagates, opposite infinities give NaN. -/
def EF.add : EF → EF → EF
  | .nan, _ => .nan
  | _, .nan => .nan
  | .inf a, .inf b => if a = b then .inf a else .nan
  | .inf a, .fin _ => .inf a
  | .fin _, .inf b => .inf b
  | .fin p, .fin q => .fin (qadd p q)

def EF.sub (x y : EF) : EF := x.add y.neg

/-- `np.abs`. -/
def EF.abs : EF → EF
  | .nan => .nan
  | .inf _ => .inf true
  | .fin q => .fin (qabs q)

/-- IEEE multiplication: NaN propagates, `0 * ∞ = NaN`. -/
def EF.mul : EF → EF → EF
  | .nan, _ => .nan
  | _, .nan => .nan
  | .inf a, .inf b => .inf (a == b)
  | .inf a, .fin q => if q = 0 then .nan else .inf (a == decide (0 < q))
  | .fin q, .inf b => if q = 0 then .nan else .inf (b == decide (0 < q))
  | .fin p, .fin q => .fin (qmul p q)

/-- IEEE division: NaN propagates, `∞/∞ = NaN`, `x/0` is a signed infinity
for `x ≠ 0` (the zero divisor carries sign `+` here, as a float `0.0` does),
`0/0 = NaN`, and `finite/∞ = 0`. -/
def EF.div : EF → EF → EF
  | .nan, _ => .nan
  | _, .nan => .nan
  | .inf _, .inf _ => .nan
  | .inf a, .fin q => if q = 0 then .inf a else .inf (a == decide (0 < q))
  | .fin _, .inf _ => .fin 0
  | .fin p, .fin q =>
      if q = 0 then (if p = 0 then .nan else .inf (decide (0 < p))) else .fin (qdiv p q)

/-- IEEE `≤` as the source uses it: any comparison against NaN is false. -/
def EF.leb : EF → EF → Bool
  | .nan, _ => false
  | _, .nan => false
  | .inf a, .inf b => !a || b
  | .inf a, .fin _ => !a
  | .fin _, .inf b => b
  | .fin p, .fin q => decide (p ≤ q)

/-- IEEE `<`: any comparison against NaN is false. -/
def EF.ltb : EF → EF → Bool
  | .nan, _ => false
  | _, .nan => false
  | .inf a, .inf b => !a && b
  | .inf a, .fin _ => !a
  | .fin _, .inf b => b
  | .fin p, .fin q => decide (p < q)

/-- Abstract stand-ins for the two irrational primitives of the source
(`np.log`, the square root inside `pandas.Series.std`).  The source never
branches on their values, only applies them under guards. -/
structure RealOps where
  log : ℚ → ℚ
  sqrt : ℚ → ℚ

/-- A concrete instantiation used by the closed witness/counterexample
theorems (their statements never depend on these values). -/
def ops0 : RealOps := ⟨fun _ => 0, fun _ => 0⟩

/-- A `pandas.DataFrame`: named columns, rows of cells in column order. -/
structure Table where
  cols : List String
  rows : List (List EF)
deriving DecidableEq

/-- `df.columns` membership (`sensor in df.columns`). -/
def Table.hasCol (t : Table) (c : String) : Bool := t.cols.contains c

/-- Column extraction `df[c]` as the list of cells down the rows.  Missing
cells of a ragged row read as NaN; a well-formed frame (`Table.wf`) has none. -/
def Table.getCol (t : Table) (c : String) : List EF :=
  match t.cols.findIdx? (· == c) with
  | some i => t.rows.map (fun r => r.getD i EF.nan)
  | none => []

/-- Well-formedness of a frame: every row has one cell per column. -/
def Table.wf (t : Table) : Bool := t.rows.all (fun r => r.length == t.cols.length)

/-- Entries that `skipna` / `np.nanmean` keep. -/
def dropNanL (xs : List EF) : List EF := xs.filter (fun x => !x.isNan)

/-- numpy/pandas summation (left fold from 0). -/
def efSum (xs : List EF) : EF := xs.foldl EF.add (.fin 0)

/-- `np.nanmean`, which coincides with `pandas.Series.mean` (skipna default):
drop NaN entries, then sum/count; NaN when nothing remains.  Infinities are
NOT dropped: they are averaged in and propagate. -/
def nanmean (xs : List EF) : EF :=
  let v := dropNanL xs
  if v.isEmpty then .nan else (efSum v).div (.fin (mkRat (v.length : Int) 1))

/-- `pandas.Series.var(ddof=1)` (skipna): sample variance, NaN when fewer
than two non-NaN entries remain. -/
def pdVar (xs : List EF) : EF :=
  let v := dropNanL xs
  if v.length ≤ 1 then .nan
  else
    let m := (efSum v).div (.fin (mkRat (v.length : Int) 1))
    (efSum (v.map (fun x => (x.sub m).mul (x.sub m)))).div (.fin (mkRat ((v.length - 1 : Nat) : Int) 1))

/-- `pandas.Series.std(ddof=1)`: square root of the sample variance. -/
def pdStd (ops : RealOps) (xs : List EF) : EF :=
  match pdVar xs with
  | .nan => .nan
  | .inf b => if b then .inf true else .nan
  | .fin q => if q < 0 then .nan else .fin (ops.sqrt q)

/-- `max` with skipna (pandas group `transform("max")` per key): maximum of
the non-NaN entries, NaN when none remain. -/
def efMaxSkipNan (xs : List EF) : EF :=
  match dropNanL xs with
  | [] => .nan
  | y :: ys => ys.foldl (fun a b => if a.leb b then b else a) y

/-- Distinct values in order of first appearance. -/
def firstDedup (l : List EF) : List EF :=
  l.foldl (fun acc x => if acc.contains x then acc else acc ++ [x]) []

/-- The group keys of `df.groupby(col, sort=False)`: distinct non-NaN values
of the column, in order of first appearance (pandas drops NaN keys). -/
def groupKeys (t : Table) (engineCol : String) : List EF :=
  firstDedup ((t.getCol engineCol).filter (fun x => !x.isNan))

/-! ## `ensure_life_frac` (utils.py lines 10-30) -/

/-- The per-engine cycle values of one group key (`df.groupby(ec)[cc]` for
key `k`): cycle cells of the rows whose engine cell equals `k`. -/
def cyclesOf (df : Table) (ec cc : String) (k : EF) : List EF :=
  ((df.getCol ec).zip (df.getCol cc)).filterMap
    (fun p => if p.1 == k then some p.2 else none)

/-- Line 28-29: `df.groupby(ec)[cc].transform("max")` broadcast back and
divided into the cycle column.  Rows whose group key is NaN receive NaN from
the transform (pandas drops NaN keys), hence NaN after the division. -/
def lifeFracList (df : Table) (ec cc : String) : List EF :=
  ((df.getCol ec).zip (df.getCol cc)).map
    (fun p => if p.1.isNan then EF.nan else p.2.div (efMaxSkipNan (cyclesOf df ec cc p.1)))

/-- `ensure_life_frac` (lines 10-30).  The `out_col in df.columns`
short-circuit comes first; `df.groupby(engine_col)[cycle_col]` raises a
KeyError when either column is absent; otherwise the derived column is
appended to the frame. -/
def ensure_life_frac (df : Table) (ec cc oc : String) : Except String Table :=
  if df.hasCol oc then .ok df
  else if df.hasCol ec = false then .error ("KeyError: " ++ ec)
  else if df.hasCol cc = false then .error ("KeyError: " ++ cc)
  else .ok ⟨df.cols ++ [oc],
            (df.rows.zip (lifeFracList df ec cc)).map (fun p => p.1 ++ [p.2])⟩

/-! ## `degradation_indicators` (utils.py lines 33-139) -/

/-- The frozen dataclass of utils.py lines 33-48. -/
structure DegradationIndicators where
  sensor : String
  mean_shift : EF
  abs_mean_shift : EF
  variance_ratio : EF
  log_variance_ratio : EF
  slope : EF
  abs_slope : EF
  baseline_std_early : EF
  mean_shift_std : EF
  abs_mean_shift_std : EF
  slope_std : EF
  abs_slope_std : EF
  n_engines_used_shift : Nat
  n_engines_used_slope : Nat
deriving DecidableEq

/-- Line 80: one group of `df.groupby(engine_col, sort=False)` restricted to
`g[[life_frac_col, sensor]].dropna()` — the (life_frac, sensor) pairs of the
rows with key `k`, rows with NaN in either of the two columns dropped. -/
def groupPairs (df : Table) (ec lc s : String) (k : EF) : List (EF × EF) :=
  (((df.getCol ec).zip (df.getCol lc)).zip (df.getCol s)).filterMap
    (fun p => if p.1.1 == k && !p.1.2.isNan && !p.2.isNan then some (p.1.2, p.2) else none)

/-- Line 84: `g.loc[g[life_frac_col] <= early_frac, sensor]`. -/
def earlyWindow (g : List (EF × EF)) (earlyFrac : ℚ) : List EF :=
  (g.filter (fun p => p.1.leb (.fin earlyFrac))).map Prod.snd

/-- Line 85: `g.loc[g[life_frac_col] >= late_frac, sensor]`. -/
def lateWindow (g : List (EF × EF)) (lateFrac : ℚ) : List EF :=
  (g.filter (fun p => (EF.fin lateFrac).leb p.1)).map Prod.snd

/-- Degree-1 `np.polyfit` slope by the least-squares normal equation
`(n·Σxy − Σx·Σy) / (n·Σx² − (Σx)²)` in the extended arithmetic.  The
rank-deficient case (all x equal: zero denominator) is modelled by the IEEE
division (±∞/NaN) rather than the minimum-norm SVD solution numpy computes
there; no claim in this development depends on that degenerate case. -/
def polyfitSlope (xs ys : List EF) : EF :=
  let n : EF := .fin (mkRat (xs.length : Int) 1)
  let sx := efSum xs
  let sy := efSum ys
  let sxx := efSum (xs.map (fun x => x.mul x))
  let sxy := efSum ((xs.zip ys).map (fun p => p.1.mul p.2))
  ((n.mul sxy).sub (sx.mul sy)).div ((n.mul sxx).sub (sx.mul sx))

/-- What one engine contributes to the three per-engine lists
(`mean_shifts`, `var_ratios`, `slopes`); `none` means no entry is appended. -/
structure Contrib where
  meanShift : Option EF
  varRatio : Option EF
  slope : Option EF
deriving DecidableEq

/-- The loop body of utils.py lines 79-100 for one engine group `g`
(already restricted to the two columns and dropna-ed): the `g.empty`
`continue`, the two ≥ 5-point windows gating `mean_shift` and
`variance_ratio` (the latter additionally requiring a finite positive early
variance and a finite late variance), and the ≥ `min_points_for_slope` gate
for the fitted slope. -/
def engineContrib (g : List (EF × EF)) (earlyFrac lateFrac : ℚ) (minPts : Nat) : Contrib :=
  if g.isEmpty then ⟨none, none, none⟩
  else
    let early := earlyWindow g earlyFrac
    let late := lateWindow g lateFrac
    let ms := if 5 ≤ early.length && 5 ≤ late.length
      then some ((nanmean late).sub (nanmean early)) else none
    let vr := if 5 ≤ early.length && 5 ≤ late.length then
        (let ve := pdVar early
         let vl := pdVar late
         if ve.isFinite && (EF.fin 0).ltb ve && vl.isFinite then some (vl.div ve) else none)
      else none
    let sl := if minPts ≤ g.length
      then some (polyfitSlope (g.map Prod.fst) (g.map Prod.snd)) else none
    ⟨ms, vr, sl⟩

/-- The loop of lines 79-100 over all engine groups, in group order. -/
def contribsOf (df : Table) (s ec lc : String) (ef lf : ℚ) (mp : Nat) : List Contrib :=
  (groupKeys df ec).map (fun k => engineContrib (groupPairs df ec lc s k) ef lf mp)

/-- The `mean_shifts` list accumulated by the loop. -/
def mean_shifts (df : Table) (s ec lc : String) (ef lf : ℚ) (mp : Nat) : List EF :=
  (contribsOf df s ec lc ef lf mp).filterMap Contrib.meanShift

/-- The `var_ratios` list accumulated by the loop. -/
def var_ratios (df : Table) (s ec lc : String) (ef lf : ℚ) (mp : Nat) : List EF :=
  (contribsOf df s ec lc ef lf mp).filterMap Contrib.varRatio

/-- The `slopes` list accumulated by the loop. -/
def slopes (df : Table) (s ec lc : String) (ef lf : ℚ) (mp : Nat) : List EF :=
  (contribsOf df s ec lc ef lf mp).filterMap Contrib.slope

/-- Line 116: `df.loc[df[life_frac_col] <= early_frac, sensor]` — the
fleet-pooled early-life sensor cells (NaN life_frac rows excluded because
the IEEE `≤` is false on NaN; NaN sensor cells are later skipped by `std`). -/
def earlyPool (df : Table) (s lc : String) (ef : ℚ) : List EF :=
  ((df.getCol lc).zip (df.getCol s)).filterMap
    (fun p => if p.1.leb (.fin ef) then some p.2 else none)

/-- Line 116: the fleet-pooled early-life sample standard deviation, before
the positivity/finiteness guard of line 117. -/
def baseline_raw (ops : RealOps) (df : Table) (s lc : String) (ef : ℚ) : EF :=
  pdStd ops (earlyPool df s lc ef)

/-- Lines 102-139: the aggregation of the per-engine lists into the
returned record, after the column checks have passed. -/
def mkIndicators (ops : RealOps) (df : Table) (s ec lc : String)
    (ef lf : ℚ) (mp : Nat) : DegradationIndicators :=
  let ms := mean_shifts df s ec lc ef lf mp
  let vr := var_ratios df s ec lc ef lf mp
  let sl := slopes df s ec lc ef lf mp
  let mean_shift := if ms.isEmpty then EF.nan else nanmean ms
  let abs_mean_shift := if ms.isEmpty then EF.nan else nanmean (ms.map EF.abs)
  let variance_ratio := if vr.isEmpty then EF.nan else nanmean vr
  let log_variance_ratio := match variance_ratio with
    | .fin q => if 0 < q then EF.fin (ops.log q) else EF.nan
    | _ => EF.nan
  let slope := if sl.isEmpty then EF.nan else nanmean sl
  let abs_slope := if sl.isEmpty then EF.nan else nanmean (sl.map EF.abs)
  let braw := baseline_raw ops df s lc ef
  let baseline_std := if braw.isFinite && (EF.fin 0).ltb braw then braw else EF.nan
  let mean_shift_std := if baseline_std.isFinite then mean_shift.div baseline_std else EF.nan
  let abs_mean_shift_std := if baseline_std.isFinite then abs_mean_shift.div baseline_std else EF.nan
  let slope_std := if baseline_std.isFinite then slope.div baseline_std else EF.nan
  let abs_slope_std := if baseline_std.isFinite then abs_slope.div baseline_std else EF.nan
  ⟨s, mean_shift, abs_mean_shift, variance_ratio, log_variance_ratio, slope, abs_slope,
   baseline_std, mean_shift_std, abs_mean_shift_std, slope_std, abs_slope_std,
   (if ms.isEmpty then 0 else ms.countP EF.isFinite),
   (if sl.isEmpty then 0 else sl.countP EF.isFinite)⟩

/-- `degradation_indicators` (lines 51-139).  Lines 68-73 raise on a missing
sensor or life_frac column; line 79 (`df.groupby(engine_col, ...)`) raises
when the engine column is absent; otherwise the record is computed. -/
def degradation_indicators (ops : RealOps) (df : Table) (s : String)
    (ec lc : String) (ef lf : ℚ) (mp : Nat) : Except String DegradationIndicators :=
  if df.hasCol s = false then
    .error ("KeyError: Missing sensor column: " ++ s)
  else if df.hasCol lc = false then
    .error ("KeyError: Missing " ++ lc ++ ". Call ensure_life_frac(df) before computing indicators.")
  else if df.hasCol ec = false then
    .error ("KeyError: " ++ ec)
  else
    .ok (mkIndicators ops df s ec lc ef lf mp)

/-- State-passing rendition of `degradation_indicators` for the frame claim:
every pandas operation of the body (column membership, `groupby`, `loc`,
`dropna`, `mean`, `var`, `std`) is a read and is threaded as a
(value, frame-afterwards) pair; the source contains no assignment or
in-place operation on `df` between lines 68 and 139, so no step returns a
modified frame. -/
def degradation_indicators_st (ops : RealOps) (df : Table) (s : String)
    (ec lc : String) (ef lf : ℚ) (mp : Nat) :
    Except String DegradationIndicators × Table :=
  let r1 := (df.hasCol s, df)
  if r1.1 = false then (.error ("KeyError: Missing sensor column: " ++ s), r1.2)
  else
    let r2 := (r1.2.hasCol lc, r1.2)
    if r2.1 = false then
      (.error ("KeyError: Missing " ++ lc ++ ". Call ensure_life_frac(df) before computing indicators."), r2.2)
    else
      let r3 := (r2.2.hasCol ec, r2.2)
      if r3.1 = false then (.error ("KeyError: " ++ ec), r3.2)
      else
        let r4 := (mkIndicators ops r3.2 s ec lc ef lf mp, r3.2)
        (.ok r4.1, r4.2)

/-! ## `rank_sensors_by_degradation` (utils.py lines 142-182)

Line 182 is `summary.sort_values("score", ascending=False)`.  pandas computes
the row order with `nargsort`: NaN keys are set aside for the end
(`na_position="last"`); for a descending sort the non-NaN keys and their
positions are reversed, `np.argsort` is applied ascending, and the resulting
indexer is reversed again.  `np.argsort` runs with its default
`kind="quicksort"`, numpy's introsort: segments of more than 16 elements are
partitioned (median-of-3 pivot, index swaps), a global depth budget of
`2·⌊log₂ n⌋` falls back to heapsort, and segments of at most 16 elements are
finished by a stable ascending insertion sort.  The partition swaps make the
default argsort unstable above 16 elements.  The model below follows numpy's
`npysort` quicksort/heapsort code (the classic scalar path) step by step;
loops are driven by an ample fuel parameter that never binds for the bounded
iteration counts of the real algorithm. -/

/-- numpy float compare `LT(a, b)`: `a < b`, with NaN sorted to the end
(`a < b || (b != b && a == a)`). -/
def npyLT (x y : EF) : Bool := x.ltb y || (!x.isNan && y.isNan)

/-- Swap two positions of the index array. -/
def swapL (l : List Nat) (i j : Nat) : List Nat :=
  let a := l.getD i 0
  let b := l.getD j 0
  (l.set i b).set j a

/-- Stable insertion of `x` before the first element not below it. -/
def insertLe (le : Nat → Nat → Bool) (x : Nat) : List Nat → List Nat
  | [] => [x]
  | y :: ys => if le x y then x :: y :: ys else y :: insertLe le x ys

/-- Stable ascending insertion sort. -/
def insertionSortBy (le : Nat → Nat → Bool) : List Nat → List Nat
  | [] => []
  | x :: xs => insertLe le x (insertionSortBy le xs)

/-- numpy's small-segment (≤ 16 elements) sort: a stable ascending insertion
sort of `arr[pl..pr]` in place.  numpy shifts entries inside the array; the
structural insertion sort here produces the same list — both compute the
unique stable ascending ordering by the same `LT` comparator. -/
def segSort (v : Nat → EF) (arr : List Nat) (pl pr : Nat) : List Nat :=
  let pre := arr.take pl
  let mid := (arr.drop pl).take (pr + 1 - pl)
  let post := arr.drop (pr + 1)
  pre ++ insertionSortBy (fun a b => !(npyLT (v b) (v a))) mid ++ post

/-- 1-based segment read `a[k]` of numpy's indirect heapsort
(`a = tosort + pl - 1`). -/
def hsGet (arr : List Nat) (pl k : Nat) : Nat := arr.getD (pl + k - 1) 0

/-- 1-based segment write `a[k] = x`. -/
def hsSet (arr : List Nat) (pl k x : Nat) : List Nat := arr.set (pl + k - 1) x

/-- The sift-down loop shared by both phases of numpy's `aheapsort`:
`for (i, j) ... { if (j < n && LT(v[a[j]], v[a[j+1]])) j++;
if (LT(v[tmp], v[a[j]])) { a[i] = a[j]; i = j; j += i; } else break; }`.
Returns the array and the final `i` (the hole where `tmp` is then stored). -/
def hsSift (v : Nat → EF) : Nat → List Nat → Nat → Nat → Nat → Nat → Nat → List Nat × Nat
  | 0, arr, _, _, _, i, _ => (arr, i)
  | fuel+1, arr, pl, n, tmp, i, j =>
    if j ≤ n then
      let j2 := if j < n && npyLT (v (hsGet arr pl j)) (v (hsGet arr pl (j+1))) then j + 1 else j
      if npyLT (v tmp) (v (hsGet arr pl j2)) then
        hsSift v fuel (hsSet arr pl i (hsGet arr pl j2)) pl n tmp j2 (j2 + j2)
      else (arr, i)
    else (arr, i)

/-- Heapify phase: `for (l = n >> 1; l > 0; --l)`. -/
def hsHeapify (v : Nat → EF) : Nat → List Nat → Nat → Nat → Nat → List Nat
  | 0, arr, _, _, _ => arr
  | fuel+1, arr, pl, n, l =>
    if l = 0 then arr
    else
      let tmp := hsGet arr pl l
      let si := hsSift v (n + 2) arr pl n tmp l (l + l)
      hsHeapify v fuel (hsSet si.1 pl si.2 tmp) pl n (l - 1)

/-- Extraction phase: `for (; n > 1;) { tmp = a[n]; a[n] = a[1]; --n; sift }`. -/
def hsExtract (v : Nat → EF) : Nat → List Nat → Nat → Nat → List Nat
  | 0, arr, _, _ => arr
  | fuel+1, arr, pl, n =>
    if n ≤ 1 then arr
    else
      let tmp := hsGet arr pl n
      let arr2 := hsSet arr pl n (hsGet arr pl 1)
      let n2 := n - 1
      let si := hsSift v (n + 2) arr2 pl n2 tmp 1 2
      hsExtract v fuel (hsSet si.1 pl si.2 tmp) pl n2

/-- numpy's indirect heapsort of the segment `arr[pl..pl+n-1]` (the introsort
depth-limit fallback). -/
def npyAHeapsort (v : Nat → EF) (arr : List Nat) (pl n : Nat) : List Nat :=
  hsExtract v (n + 2) (hsHeapify v (n + 2) arr pl n (n / 2)) pl n

/-- Partition scan `do ++pi; while (LT(v[arr[pi]], vp))`. -/
def scanUp (v : Nat → EF) (vp : EF) (arr : List Nat) : Nat → Nat → Nat
  | 0, pi => pi + 1
  | fuel+1, pi =>
    let pi2 := pi + 1
    if npyLT (v (arr.getD pi2 0)) vp then scanUp v vp arr fuel pi2 else pi2

/-- Partition scan `do --pj; while (LT(vp, v[arr[pj]]))`. -/
def scanDown (v : Nat → EF) (vp : EF) (arr : List Nat) : Nat → Nat → Nat
  | 0, pj => pj - 1
  | fuel+1, pj =>
    let pj2 := pj - 1
    if npyLT vp (v (arr.getD pj2 0)) then scanDown v vp arr fuel pj2 else pj2

/-- The Hoare-style partition exchange loop of numpy's quicksort:
scan up, scan down, `if (pi >= pj) break;`, swap, repeat.  Returns the array
and the final `pi`. -/
def partitionLoop (v : Nat → EF) (vp : EF) : Nat → List Nat → Nat → Nat → List Nat × Nat
  | 0, arr, pi, _ => (arr, pi)
  | fuel+1, arr, pi, pj =>
    let pi2 := scanUp v vp arr (fuel + 1) pi
    let pj2 := scanDown v vp arr (fuel + 1) pj
    if pj2 ≤ pi2 then (arr, pi2)
    else partitionLoop v vp fuel (swapL arr pi2 pj2) pi2 pj2

/-- The driver loop of numpy's indirect introsort over segment `[pl, pr]`
with an explicit pending-segment stack, a global depth budget (decremented
once per partition, heapsort when exhausted), the median-of-3 pivot swaps,
and the `SMALL_QUICKSORT = 15` threshold (`pr - pl > 15`, i.e. more than 16
elements) below which the segment is insertion sorted. -/
def npyQSLoop (v : Nat → EF) : Nat → List Nat → Int → List (Nat × Nat) → Nat → Nat → List Nat
  | 0, arr, _, _, _, _ => arr
  | fuel+1, arr, depth, stk, pl, pr =>
    if 15 < pr - pl then
      if depth < 0 then
        let arr2 := npyAHeapsort v arr pl (pr - pl + 1)
        match stk with
        | [] => arr2
        | (pl2, pr2) :: rest => npyQSLoop v fuel arr2 depth rest pl2 pr2
      else
        let pm := pl + (pr - pl) / 2
        let arr1 := if npyLT (v (arr.getD pm 0)) (v (arr.getD pl 0)) then swapL arr pm pl else arr
        let arr2 := if npyLT (v (arr1.getD pr 0)) (v (arr1.getD pm 0)) then swapL arr1 pr pm else arr1
        let arr3 := if npyLT (v (arr2.getD pm 0)) (v (arr2.getD pl 0)) then swapL arr2 pm pl else arr2
        let vp := v (arr3.getD pm 0)
        let arr4 := swapL arr3 pm (pr - 1)
        let pp := partitionLoop v vp (fuel + 1) arr4 pl (pr - 1)
        let arr5 := swapL pp.1 pp.2 (pr - 1)
        if pp.2 - pl < pr - pp.2 then
          npyQSLoop v fuel arr5 (depth - 1) ((pp.2 + 1, pr) :: stk) pl (pp.2 - 1)
        else
          npyQSLoop v fuel arr5 (depth - 1) ((pl, pp.2 - 1) :: stk) (pp.2 + 1) pr
    else
      let arr2 := segSort v arr pl pr
      match stk with
      | [] => arr2
      | (pl2, pr2) :: rest => npyQSLoop v fuel arr2 depth rest pl2 pr2

/-- `np.argsort(values, kind="quicksort")` over positions `0..m-1` with key
lookup `v`: numpy's indirect introsort with depth budget `2·⌊log₂ m⌋`. -/
def npyAQuickSort (v : Nat → EF) (m : Nat) : List Nat :=
  if m = 0 then []
  else npyQSLoop v (2 * m * m + 64) (List.range m) (2 * Int.ofNat (Nat.log2 m)) [] 0 (m - 1)

/-- Key lookup for the sort: position `i` of the score column. -/
def keyOf (keys : List EF) (i : Nat) : EF := keys.getD i EF.nan

/-- pandas `nargsort(keys, kind="quicksort", ascending=False,
na_position="last")`: NaN positions go last; the non-NaN positions are
reversed, argsorted ascending by their keys, and the indexer is reversed. -/
def nargsortDesc (keys : List EF) : List Nat :=
  let n := keys.length
  let nonNanIdx := (List.range n).filter (fun i => !(keyOf keys i).isNan)
  let nanIdx := (List.range n).filter (fun i => (keyOf keys i).isNan)
  let revIdx := nonNanIdx.reverse
  let p := npyAQuickSort (fun j => keyOf keys (revIdx.getD j 0)) revIdx.length
  let indexer := p.map (fun j => revIdx.getD j 0)
  indexer.reverse ++ nanIdx

/-- `summary["x"].fillna(0)`. -/
def or0 (x : EF) : EF := if x.isNan then .fin 0 else x

/-- `summary["log_variance_ratio"].clip(lower=0)`: values below 0 become 0,
NaN stays NaN (the IEEE `<` is false on NaN). -/
def clip0 (x : EF) : EF := if x.ltb (.fin 0) then .fin 0 else x

/-- One row of the `summary` frame: the indicator fields plus the two
derived columns of lines 175-180. -/
structure SummaryRow where
  ind : DegradationIndicators
  instability_signal : EF
  score : EF
deriving DecidableEq

/-- Lines 175-180: `instability_signal = log_variance_ratio.clip(lower=0)`;
`score = abs_mean_shift_std.fillna(0) + abs_slope_std.fillna(0) +
instability_signal.fillna(0)` (left associated, as pandas evaluates it). -/
def summaryRow (ind : DegradationIndicators) : SummaryRow :=
  let instab := clip0 ind.log_variance_ratio
  ⟨ind, instab,
   ((or0 ind.abs_mean_shift_std).add (or0 ind.abs_slope_std)).add (or0 instab)⟩

/-- Line 169 + 175-180: the `summary` frame, one row per computed record. -/
def assembleSummary (inds : List DegradationIndicators) : List SummaryRow :=
  inds.map summaryRow

/-- Lines 153-154: explicit sensor list, or every column named with the
`sensor_` prefix. -/
def resolveSensors (df : Table) (sensors : Option (List String)) : List String :=
  match sensors with
  | some ss => ss
  | none => df.cols.filter (fun c => c.startsWith "sensor_")

/-- Line 182: `summary.sort_values("score", ascending=False)` — take the rows
in the order of the pandas descending indexer. -/
def sortSummary (base : List SummaryRow) : List SummaryRow :=
  (nargsortDesc (base.map SummaryRow.score)).filterMap (fun i => base[i]?)

/-- `rank_sensors_by_degradation` (lines 142-182).  Each per-sensor call may
raise (propagated).  When the sensor list is empty, line 169 builds
`pd.DataFrame([])`, a frame with no columns, and line 175
(`summary["log_variance_ratio"]`) raises a KeyError. -/
def rank_sensors_by_degradation (ops : RealOps) (df : Table)
    (sensors : Option (List String)) (ec lc : String) (ef lf : ℚ) (mp : Nat) :
    Except String (List SummaryRow) :=
  ((resolveSensors df sensors).mapM
      (fun s => degradation_indicators ops df s ec lc ef lf mp)).bind
    (fun inds =>
      if inds.isEmpty then .error "KeyError: log_variance_ratio"
      else .ok (sortSummary (assembleSummary inds)))

/-! ## Spec-side formalisations (used only to compare against the code) -/

/-- Spec side, claim C2: a fleet mean "computed while ignoring every
non-finite entry (NaN and ±infinity)", undefined when nothing remains. -/
def meanIgnoringNonFinite (xs : List EF) : EF :=
  let v := xs.filter EF.isFinite
  if v.isEmpty then .nan else (efSum v).div (.fin (mkRat (v.length : Int) 1))

/-- Spec side, claim C4: "0 substituted if undefined". -/
def subst0 (x : EF) : EF := if x = .nan then .fin 0 else x

/-- Spec side, claim C4: "max(log_variance_ratio, 0) when defined, undefined
when log_variance_ratio is undefined". -/
def instabSpec (x : EF) : EF :=
  if x.isNan then .nan else if x.leb (.fin 0) then .fin 0 else x

/-! ## Concrete inputs for the closed theorems -/

/-- Four zero-valued cells. -/
def z4 : List EF := [.fin 0, .fin 0, .fin 0, .fin 0]

/-- Engine 1 of the C2 table: five early rows with sensor 0, four late rows
with sensor 0 and one late row with sensor +∞. -/
def rowsEng1 : List (List EF) :=
  (List.replicate 5 [EF.fin 1, EF.fin (mkRat 1 10), EF.fin 0]) ++
  (List.replicate 4 [EF.fin 1, EF.fin (mkRat 9 10), EF.fin 0]) ++
  [[EF.fin 1, EF.fin (mkRat 9 10), EF.inf true]]

/-- Engine 2 of the C2 table: five early and five late rows, sensor 1. -/
def rowsEng2 : List (List EF) :=
  (List.replicate 5 [EF.fin 2, EF.fin (mkRat 1 10), EF.fin 1]) ++
  (List.replicate 5 [EF.fin 2, EF.fin (mkRat 9 10), EF.fin 1])

/-- C2 counterexample table: engine 1 has per-engine mean shift +∞ (one
infinite late cell), engine 2 has mean shift 0. -/
def Tc2 : Table := ⟨["engine_id", "life_frac", "s"], rowsEng1 ++ rowsEng2⟩

/-- C8 counterexample table: a `life_frac` column is already present, filled
with 0, so `ensure_life_frac` returns the frame unchanged. -/
def Tc8 : Table := ⟨["engine_id", "cycle", "life_frac"], [[.fin 1, .fin 1, .fin 0]]⟩

/-- C8 witness table: two columns, one engine with cycles 1 and 2. -/
def Tw8 : Table := ⟨["engine_id", "cycle"], [[.fin 1, .fin 1], [.fin 1, .fin 2]]⟩

/-- The result of `ensure_life_frac` on `Tw8`. -/
def Tw8out : Table :=
  ⟨["engine_id", "cycle", "life_frac"],
   [[.fin 1, .fin 1, .fin (mkRat 1 2)], [.fin 1, .fin 2, .fin 1]]⟩

/-- A minimal frame with the three needed columns and no rows (used by
several witnesses: all lists are empty, every aggregate is NaN). -/
def Tempty : Table := ⟨["engine_id", "life_frac", "s"], []⟩

/-- The 17 sensor names of the C1 input. -/
def sensors17 : List String :=
  ["s01", "s02", "s03", "s04", "s05", "s06", "s07", "s08", "s09",
   "s10", "s11", "s12", "s13", "s14", "s15", "s16", "s17"]

/-- C1 input: 17 sensor columns and no data rows, so all 17 scores are 0
(tied) — more rows than numpy's 16-element insertion-sort threshold. -/
def T17 : Table := ⟨["engine_id", "life_frac"] ++ sensors17, []⟩

/-- The sensor names of a ranking result, in row order. -/
def rankedSensorNames (e : Except String (List SummaryRow)) : List String :=
  match e with
  | .ok l => l.map (fun r => r.ind.sensor)
  | .error _ => []

/-- The scores of a ranking result, in row order. -/
def rankedScores (e : Except String (List SummaryRow)) : List EF :=
  match e with
  | .ok l => l.map SummaryRow.score
  | .error _ => []

/-- C6 witness input: the sensor column exists but `life_frac` is absent. -/
def TnoLf : Table := ⟨["engine_id", "s"], []⟩

/-! ## Theorems -/

/-- A successful `degradation_indicators` call means all three column checks
passed and the result is the computed record. -/
theorem degradation_indicators_ok {ops : RealOps} {df : Table} {s ec lc : String}
    {ef lf : ℚ} {mp : Nat} {ind : DegradationIndicators}
    (hok : degradation_indicators ops df s ec lc ef lf mp = .ok ind) :
    df.hasCol s = true ∧ df.hasCol lc = true ∧ df.hasCol ec = true ∧
    ind = mkIndicators ops df s ec lc ef lf mp := by
  unfold degradation_indicators at hok
  split at hok
  · exact absurd hok (by simp)
  · split at hok
    · exact absurd hok (by simp)
    · split at hok
      · exact absurd hok (by simp)
      · rename_i h1 h2 h3
        exact ⟨by simpa using h1, by simpa using h2, by simpa using h3,
               (Except.ok.inj hok).symm⟩

/-- C6: `degradation_indicators` fails with the missing-sensor-column
KeyError whenever the requested sensor column is absent, and with the
missing-`life_frac` precondition KeyError whenever the sensor column is
present but the `life_frac` column is absent; in both cases it returns an
error, never a result. -/
theorem missing_column_errors (ops : RealOps) (df : Table) (s ec lc : String)
    (ef lf : ℚ) (mp : Nat) :
    (df.hasCol s = false →
      degradation_indicators ops df s ec lc ef lf mp =
        .error ("KeyError: Missing sensor column: " ++ s)) ∧
    (df.hasCol s = true → df.hasCol lc = false →
      degradation_indicators ops df s ec lc ef lf mp =
        .error ("KeyError: Missing " ++ lc ++
          ". Call ensure_life_frac(df) before computing indicators.")) := by
  constructor
  · intro h
    unfold degradation_indicators
    rw [if_pos h]
  · intro h1 h2
    unfold degradation_indicators
    rw [if_neg (by simp [h1]), if_pos h2]

/-- Witness for the C6 theorem: a concrete frame without the sensor column,
and a concrete frame with the sensor but without `life_frac`. -/
theorem missing_column_errors_witness :
    (Tempty.hasCol "zz" = false ∧
      degradation_indicators ops0 Tempty "zz" "engine_id" "life_frac"
          (mkRat 1 5) (mkRat 4 5) 20 =
        .error ("KeyError: Missing sensor column: " ++ "zz")) ∧
    (TnoLf.hasCol "s" = true ∧ TnoLf.hasCol "life_frac" = false ∧
      degradation_indicators ops0 TnoLf "s" "engine_id" "life_frac"
          (mkRat 1 5) (mkRat 4 5) 20 =
        .error ("KeyError: Missing " ++ "life_frac" ++
          ". Call ensure_life_frac(df) before computing indicators.")) :=
  ⟨⟨by decide, (missing_column_errors ops0 Tempty "zz" "engine_id" "life_frac"
      (mkRat 1 5) (mkRat 4 5) 20).1 (by decide)⟩,
   ⟨by decide, by decide, (missing_column_errors ops0 TnoLf "s" "engine_id" "life_frac"
      (mkRat 1 5) (mkRat 4 5) 20).2 (by decide) (by decide)⟩⟩

/-- C9: `degradation_indicators` never mutates its input frame — the
state-passing rendition returns exactly the pure result together with the
untouched input table, on every input (including the error paths). -/
theorem degradation_indicators_preserves_frame (ops : RealOps) (df : Table)
    (s ec lc : String) (ef lf : ℚ) (mp : Nat) :
    degradation_indicators_st ops df s ec lc ef lf mp
      = (degradation_indicators ops df s ec lc ef lf mp, df) := by
  unfold degradation_indicators_st degradation_indicators
  by_cases h1 : df.hasCol s = false
  · simp [h1]
  · by_cases h2 : df.hasCol lc = false
    · simp [h1, h2]
    · by_cases h3 : df.hasCol ec = false
      · simp [h1, h2, h3]
      · simp [h1, h2, h3]

/-- C10: an empty resolved sensor list — `sensors` explicitly empty, or
omitted on a frame with no `sensor_`-prefixed column — makes
`rank_sensors_by_degradation` raise (the KeyError of reading the
`log_variance_ratio` column of an empty assembled frame) instead of
returning an empty ranking table. -/
theorem rank_empty_sensor_list_raises (ops : RealOps) (df : Table)
    (sensors : Option (List String)) (ec lc : String) (ef lf : ℚ) (mp : Nat)
    (h : sensors = some [] ∨
         (sensors = none ∧ df.cols.filter (fun c => c.startsWith "sensor_") = [])) :
    rank_sensors_by_degradation ops df sensors ec lc ef lf mp
      = .error "KeyError: log_variance_ratio" := by
  have hres : resolveSensors df sensors = [] := by
    rcases h with h | ⟨h1, h2⟩
    · rw [h]; rfl
    · rw [h1]; exact h2
  unfold rank_sensors_by_degradation
  rw [hres]
  rfl

/-- Witness for the C10 theorem: the explicit empty sensor list on a
concrete frame. -/
theorem rank_empty_sensor_list_raises_witness :
    rank_sensors_by_degradation ops0 Tempty (some []) "engine_id" "life_frac"
      (mkRat 1 5) (mkRat 4 5) 20 = .error "KeyError: log_variance_ratio" :=
  rank_empty_sensor_list_raises ops0 Tempty (some []) "engine_id" "life_frac"
    (mkRat 1 5) (mkRat 4 5) 20 (Or.inl rfl)

/-- C3: whenever the fleet-pooled early-life sample standard deviation is
zero, negative or non-finite (equivalently: not a finite value with
`0 < std`), the stored baseline and all four normalized fields of the
returned record are NaN — in particular none of them is an infinity
produced by dividing by that baseline. -/
theorem undefined_baseline_yields_undefined_normalized_fields
    (ops : RealOps) (df : Table) (s ec lc : String) (ef lf : ℚ) (mp : Nat)
    (ind : DegradationIndicators)
    (hok : degradation_indicators ops df s ec lc ef lf mp = .ok ind)
    (hbad : (baseline_raw ops df s lc ef).isFinite = false ∨
            (EF.fin 0).ltb (baseline_raw ops df s lc ef) = false) :
    ind.baseline_std_early = .nan ∧
    ind.mean_shift_std = .nan ∧ ind.abs_mean_shift_std = .nan ∧
    ind.slope_std = .nan ∧ ind.abs_slope_std = .nan := by
  obtain ⟨-, -, -, rfl⟩ := degradation_indicators_ok hok
  have hguard : ((baseline_raw ops df s lc ef).isFinite &&
      (EF.fin 0).ltb (baseline_raw ops df s lc ef)) = false := by
    rcases hbad with h | h <;> simp [h]
  unfold mkIndicators
  simp only [hguard]
  simp [EF.isFinite]

/-- C7: `ensure_life_frac` is idempotent — composing it with itself gives the
same outcome as one application (also through the error paths), and when the
output column is already present the frame is returned unchanged. -/
theorem ensure_life_frac_idempotent (df : Table) (ec cc oc : String) :
    ((ensure_life_frac df ec cc oc).bind (fun t => ensure_life_frac t ec cc oc)
      = ensure_life_frac df ec cc oc)
    ∧ (df.hasCol oc = true → ensure_life_frac df ec cc oc = .ok df) := by
  have hshort : ∀ t : Table, t.hasCol oc = true → ensure_life_frac t ec cc oc = .ok t := by
    intro t ht
    unfold ensure_life_frac
    rw [if_pos ht]
  refine ⟨?_, hshort df⟩
  cases hE : ensure_life_frac df ec cc oc with
  | error e => rfl
  | ok t =>
    have ht : t.hasCol oc = true := by
      unfold ensure_life_frac at hE
      split at hE
      · rename_i h
        cases hE
        exact h
      · split at hE
        · exact absurd hE (by simp)
        · split at hE
          · exact absurd hE (by simp)
          · cases hE
            simp [Table.hasCol]
    show ensure_life_frac t ec cc oc = Except.ok t
    exact hshort t ht

/-- Witness for the C7 theorem: a frame that already carries `life_frac`. -/
theorem ensure_life_frac_idempotent_witness :
    Tc8.hasCol "life_frac" = true ∧
    ensure_life_frac Tc8 "engine_id" "cycle" "life_frac" = .ok Tc8 :=
  ⟨by decide,
   (ensure_life_frac_idempotent Tc8 "engine_id" "cycle" "life_frac").2 (by decide)⟩

/-- A successful ranking call decomposes into a successful per-sensor map, a
nonempty record list, and the sorted assembled summary. -/
theorem rank_ok {ops : RealOps} {df : Table} {sensors : Option (List String)}
    {ec lc : String} {ef lf : ℚ} {mp : Nat} {out : List SummaryRow}
    (hok : rank_sensors_by_degradation ops df sensors ec lc ef lf mp = .ok out) :
    ∃ inds, (resolveSensors df sensors).mapM
        (fun s => degradation_indicators ops df s ec lc ef lf mp) = .ok inds ∧
      inds ≠ [] ∧ out = sortSummary (assembleSummary inds) := by
  unfold rank_sensors_by_degradation at hok
  cases hmap : (resolveSensors df sensors).mapM
      (fun s => degradation_indicators ops df s ec lc ef lf mp) with
  | error e =>
    rw [hmap] at hok
    exact absurd hok (by simp [Except.bind])
  | ok l =>
    rw [hmap] at hok
    dsimp only [Except.bind] at hok
    by_cases hni : l.isEmpty
    · rw [if_pos hni] at hok
      exact absurd hok (by simp)
    · rw [if_neg hni] at hok
      exact ⟨l, rfl, by simpa using hni, (Except.ok.inj hok).symm⟩

/-- Rows of the sorted summary are rows of the assembled summary. -/
theorem mem_sortSummary {base : List SummaryRow} {r : SummaryRow}
    (h : r ∈ sortSummary base) : r ∈ base := by
  unfold sortSummary at h
  obtain ⟨i, -, hi⟩ := List.mem_filterMap.mp h
  exact List.getElem?_mem hi

/-- pandas `clip(lower=0)` computes the spec formula `max(x, 0)` on defined
values and keeps NaN. -/
theorem clip0_eq_instabSpec (x : EF) : clip0 x = instabSpec x := by
  cases x with
  | nan => rfl
  | inf b => cases b <;> rfl
  | fin q =>
    simp only [clip0, instabSpec, EF.ltb, EF.leb, EF.isNan, Bool.false_eq_true, if_false,
      decide_eq_true_eq]
    rcases lt_trichotomy q 0 with h | h | h
    · rw [if_pos h, if_pos h.le]
    · subst h
      norm_num
    · rw [if_neg (not_lt.mpr h.le), if_neg (not_le.mpr h)]

/-- pandas `fillna(0)` computes the spec substitution `0 if undefined`. -/
theorem or0_eq_subst0 (x : EF) : or0 x = subst0 x := by
  cases x <;> simp [or0, subst0, EF.isNan]

/-- C4: in every row of the returned ranking table, `instability_signal`
equals `max(log_variance_ratio, 0)` when the log ratio is defined and is NaN
when it is undefined, and `score` is the sum of `abs_mean_shift_std`,
`abs_slope_std` and `instability_signal` with 0 substituted for each
undefined addend. -/
theorem ranking_row_instability_and_score_formulas
    (ops : RealOps) (df : Table) (sensors : Option (List String)) (ec lc : String)
    (ef lf : ℚ) (mp : Nat) (out : List SummaryRow)
    (hok : rank_sensors_by_degradation ops df sensors ec lc ef lf mp = .ok out) :
    ∀ r ∈ out,
      r.instability_signal = instabSpec r.ind.log_variance_ratio ∧
      r.score = ((subst0 r.ind.abs_mean_shift_std).add (subst0 r.ind.abs_slope_std)).add
          (subst0 r.instability_signal) := by
  obtain ⟨inds, -, -, rfl⟩ := rank_ok hok
  intro r hr
  obtain ⟨ind, -, rfl⟩ := List.mem_map.mp (mem_sortSummary hr)
  refine ⟨?_, ?_⟩ <;> simp [summaryRow, clip0_eq_instabSpec, or0_eq_subst0]

/-- Witness for the C4 theorem: the single-sensor ranking of a concrete
frame, with the two formulas evaluated on its one row. -/
theorem ranking_row_instability_and_score_formulas_witness :
    (rank_sensors_by_degradation ops0 Tempty (some ["s"]) "engine_id" "life_frac"
        (mkRat 1 5) (mkRat 4 5) 20
      = .ok [summaryRow (mkIndicators ops0 Tempty "s" "engine_id" "life_frac"
          (mkRat 1 5) (mkRat 4 5) 20)]) ∧
    ((summaryRow (mkIndicators ops0 Tempty "s" "engine_id" "life_frac"
          (mkRat 1 5) (mkRat 4 5) 20)).instability_signal
        = instabSpec (mkIndicators ops0 Tempty "s" "engine_id" "life_frac"
          (mkRat 1 5) (mkRat 4 5) 20).log_variance_ratio ∧
     (summaryRow (mkIndicators ops0 Tempty "s" "engine_id" "life_frac"
          (mkRat 1 5) (mkRat 4 5) 20)).score
        = ((subst0 (mkIndicators ops0 Tempty "s" "engine_id" "life_frac"
              (mkRat 1 5) (mkRat 4 5) 20).abs_mean_shift_std).add
           (subst0 (mkIndicators ops0 Tempty "s" "engine_id" "life_frac"
              (mkRat 1 5) (mkRat 4 5) 20).abs_slope_std)).add
          (subst0 (summaryRow (mkIndicators ops0 Tempty "s" "engine_id" "life_frac"
              (mkRat 1 5) (mkRat 4 5) 20)).instability_signal)) :=
  ⟨by decide,
   ranking_row_instability_and_score_formulas ops0 Tempty (some ["s"]) "engine_id"
     "life_frac" (mkRat 1 5) (mkRat 4 5) 20
     [summaryRow (mkIndicators ops0 Tempty "s" "engine_id" "life_frac"
        (mkRat 1 5) (mkRat 4 5) 20)] (by decide)
     (summaryRow (mkIndicators ops0 Tempty "s" "engine_id" "life_frac"
        (mkRat 1 5) (mkRat 4 5) 20)) (by decide)⟩

/-- C5: for every engine group, if the early or the late window has fewer
than 5 points the engine contributes neither a `mean_shift` nor a
`variance_ratio` entry (so it is absent from the finite-entry count
`n_engines_used_shift`, which counts exactly the finite entries of the
contributed list); with both windows at 5 or more points its `mean_shift`
entry is `mean(late) - mean(early)`. -/
theorem engine_window_sample_gating
    (ops : RealOps) (df : Table) (s ec lc : String) (ef lf : ℚ) (mp : Nat)
    (ind : DegradationIndicators) (k : EF)
    (_hk : k ∈ groupKeys df ec)
    (hok : degradation_indicators ops df s ec lc ef lf mp = .ok ind) :
    ((earlyWindow (groupPairs df ec lc s k) ef).length < 5 ∨
     (lateWindow (groupPairs df ec lc s k) lf).length < 5 →
       (engineContrib (groupPairs df ec lc s k) ef lf mp).meanShift = none ∧
       (engineContrib (groupPairs df ec lc s k) ef lf mp).varRatio = none) ∧
    (5 ≤ (earlyWindow (groupPairs df ec lc s k) ef).length →
     5 ≤ (lateWindow (groupPairs df ec lc s k) lf).length →
       (engineContrib (groupPairs df ec lc s k) ef lf mp).meanShift =
         some ((nanmean (lateWindow (groupPairs df ec lc s k) lf)).sub
               (nanmean (earlyWindow (groupPairs df ec lc s k) ef)))) ∧
    ind.n_engines_used_shift = (mean_shifts df s ec lc ef lf mp).countP EF.isFinite := by
  obtain ⟨-, -, -, rfl⟩ := degradation_indicators_ok hok
  refine ⟨?_, ?_, ?_⟩
  · intro hlt
    unfold engineContrib
    by_cases hg : (groupPairs df ec lc s k).isEmpty
    · simp [hg]
    · have hcond : (decide (5 ≤ (earlyWindow (groupPairs df ec lc s k) ef).length) &&
          decide (5 ≤ (lateWindow (groupPairs df ec lc s k) lf).length)) = false := by
        rcases hlt with h | h <;> simp [Nat.not_le.mpr h]
      simp [hg, hcond]
  · intro h1 h2
    unfold engineContrib
    have hg : (groupPairs df ec lc s k).isEmpty = false := by
      cases hgl : groupPairs df ec lc s k with
      | nil => rw [hgl] at h1; simp [earlyWindow] at h1
      | cons p g2 => rfl
    simp [hg, h1, h2]
  · unfold mkIndicators
    by_cases hms : (mean_shifts df s ec lc ef lf mp).isEmpty
    · simp [hms, List.isEmpty_iff.mp hms]
    · simp [hms]

/-- Witness for the C5 theorem: engine 1 of the C2 frame has exactly 5 early
and 5 late points, so its `mean_shift` entry is the window-mean difference,
and the finite-entry count is evaluated. -/
theorem engine_window_sample_gating_witness :
    EF.fin 1 ∈ groupKeys Tc2 "engine_id" ∧
    5 ≤ (earlyWindow (groupPairs Tc2 "engine_id" "life_frac" "s" (.fin 1)) (mkRat 1 5)).length ∧
    5 ≤ (lateWindow (groupPairs Tc2 "engine_id" "life_frac" "s" (.fin 1)) (mkRat 4 5)).length ∧
    (engineContrib (groupPairs Tc2 "engine_id" "life_frac" "s" (.fin 1))
        (mkRat 1 5) (mkRat 4 5) 20).meanShift =
      some ((nanmean (lateWindow (groupPairs Tc2 "engine_id" "life_frac" "s" (.fin 1)) (mkRat 4 5))).sub
            (nanmean (earlyWindow (groupPairs Tc2 "engine_id" "life_frac" "s" (.fin 1)) (mkRat 1 5)))) ∧
    (mkIndicators ops0 Tc2 "s" "engine_id" "life_frac" (mkRat 1 5) (mkRat 4 5) 20).n_engines_used_shift =
      (mean_shifts Tc2 "s" "engine_id" "life_frac" (mkRat 1 5) (mkRat 4 5) 20).countP EF.isFinite :=
  ⟨by decide, by decide, by decide,
   (engine_window_sample_gating ops0 Tc2 "s" "engine_id" "life_frac"
      (mkRat 1 5) (mkRat 4 5) 20
      (mkIndicators ops0 Tc2 "s" "engine_id" "life_frac" (mkRat 1 5) (mkRat 4 5) 20)
      (.fin 1) (by decide) (by decide)).2.1
     (by decide) (by decide),
   (engine_window_sample_gating ops0 Tc2 "s" "engine_id" "life_frac"
      (mkRat 1 5) (mkRat 4 5) 20
      (mkIndicators ops0 Tc2 "s" "engine_id" "life_frac" (mkRat 1 5) (mkRat 4 5) 20)
      (.fin 1) (by decide) (by decide)).2.2⟩

/-- C1 evaluated at the failing input: 17 sensor columns on a frame with no
data rows give 17 tied scores (all 0); `sort_values("score",
ascending=False)` with numpy's default quicksort returns the rows in the
order below — NOT the input order.  The default argsort is the stable
insertion sort only up to numpy's 16-element threshold (which is why small
rankings look stable); above it, the quicksort partition permutes tied rows,
so the stable ordering the spec requires does not hold.  With
`kind="stable"` the ties would keep the input order. -/
theorem rank_default_sort_reorders_tied_sensors :
    rankedScores (rank_sensors_by_degradation ops0 T17 (some sensors17)
        "engine_id" "life_frac" (mkRat 1 5) (mkRat 4 5) 20)
      = List.replicate 17 (EF.fin 0) ∧
    rankedSensorNames (rank_sensors_by_degradation ops0 T17 (some sensors17)
        "engine_id" "life_frac" (mkRat 1 5) (mkRat 4 5) 20)
      = ["s01", "s10", "s16", "s15", "s14", "s13", "s12", "s11", "s09", "s02",
         "s08", "s07", "s06", "s05", "s04", "s03", "s17"] ∧
    rankedSensorNames (rank_sensors_by_degradation ops0 T17 (some sensors17)
        "engine_id" "life_frac" (mkRat 1 5) (mkRat 4 5) 20) ≠ sensors17 := by
  decide

/-- Spec side for the amended C2: the mean of the entries that are not NaN
— infinities participate and propagate — undefined when nothing remains. -/
def meanIgnoringNan (xs : List EF) : EF :=
  let v := xs.filter (fun x => !x.isNan)
  if v.isEmpty then .nan else (efSum v).div (.fin (mkRat (v.length : Int) 1))

/-- C2 counterexample: on the concrete frame `Tc2` the per-engine mean-shift
list is `[+∞, 0]` (engine 1 has one infinite late cell); the code aggregate
(`np.nanmean`) is +∞, while the formula of the claim — the mean ignoring
every non-finite entry — is 0.  So `np.nanmean` does not ignore ±∞. -/
theorem aggregate_mean_infinity_not_ignored :
    Except.map DegradationIndicators.mean_shift
        (degradation_indicators ops0 Tc2 "s" "engine_id" "life_frac"
          (mkRat 1 5) (mkRat 4 5) 20) = .ok (.inf true) ∧
    mean_shifts Tc2 "s" "engine_id" "life_frac" (mkRat 1 5) (mkRat 4 5) 20
      = [.inf true, .fin 0] ∧
    meanIgnoringNonFinite (mean_shifts Tc2 "s" "engine_id" "life_frac"
      (mkRat 1 5) (mkRat 4 5) 20) = .fin 0 ∧
    (EF.inf true : EF) ≠ .fin 0 := by decide

/-- C2 (amended): each fleet aggregate (`mean_shift`, `abs_mean_shift`,
`variance_ratio`, `slope`, `abs_slope`) is the NaN-ignoring mean
(`np.nanmean`) of its per-engine list — NaN entries are dropped, while
±∞ entries are averaged in and propagate — and is NaN (not zero) whenever
the per-engine list is empty (`meanIgnoringNan [] = NaN`). -/
theorem aggregates_are_nan_only_means
    (ops : RealOps) (df : Table) (s ec lc : String) (ef lf : ℚ) (mp : Nat)
    (ind : DegradationIndicators)
    (hok : degradation_indicators ops df s ec lc ef lf mp = .ok ind) :
    ind.mean_shift = meanIgnoringNan (mean_shifts df s ec lc ef lf mp) ∧
    ind.abs_mean_shift = meanIgnoringNan ((mean_shifts df s ec lc ef lf mp).map EF.abs) ∧
    ind.variance_ratio = meanIgnoringNan (var_ratios df s ec lc ef lf mp) ∧
    ind.slope = meanIgnoringNan (slopes df s ec lc ef lf mp) ∧
    ind.abs_slope = meanIgnoringNan ((slopes df s ec lc ef lf mp).map EF.abs) ∧
    meanIgnoringNan ([] : List EF) = .nan := by
  obtain ⟨-, -, -, rfl⟩ := degradation_indicators_ok hok
  have key : ∀ l : List EF, (if l.isEmpty then EF.nan else nanmean l) = meanIgnoringNan l := by
    intro l
    cases l <;> rfl
  have key2 : ∀ l : List EF,
      (if l.isEmpty then EF.nan else nanmean (l.map EF.abs)) = meanIgnoringNan (l.map EF.abs) := by
    intro l
    cases l <;> rfl
  refine ⟨?_, ?_, ?_, ?_, ?_, rfl⟩ <;> simp only [mkIndicators] <;>
    first
      | exact key _
      | exact key2 _

/-- Witness for the amended C2 theorem, evaluated on the `Tc2` frame (whose
mean-shift list is `[+∞, 0]`). -/
theorem aggregates_are_nan_only_means_witness :
    degradation_indicators ops0 Tc2 "s" "engine_id" "life_frac" (mkRat 1 5) (mkRat 4 5) 20
      = .ok (mkIndicators ops0 Tc2 "s" "engine_id" "life_frac" (mkRat 1 5) (mkRat 4 5) 20) ∧
    ((mkIndicators ops0 Tc2 "s" "engine_id" "life_frac" (mkRat 1 5) (mkRat 4 5) 20).mean_shift
        = meanIgnoringNan (mean_shifts Tc2 "s" "engine_id" "life_frac" (mkRat 1 5) (mkRat 4 5) 20) ∧
     (mkIndicators ops0 Tc2 "s" "engine_id" "life_frac" (mkRat 1 5) (mkRat 4 5) 20).abs_mean_shift
        = meanIgnoringNan ((mean_shifts Tc2 "s" "engine_id" "life_frac" (mkRat 1 5) (mkRat 4 5) 20).map EF.abs) ∧
     (mkIndicators ops0 Tc2 "s" "engine_id" "life_frac" (mkRat 1 5) (mkRat 4 5) 20).variance_ratio
        = meanIgnoringNan (var_ratios Tc2 "s" "engine_id" "life_frac" (mkRat 1 5) (mkRat 4 5) 20) ∧
     (mkIndicators ops0 Tc2 "s" "engine_id" "life_frac" (mkRat 1 5) (mkRat 4 5) 20).slope
        = meanIgnoringNan (slopes Tc2 "s" "engine_id" "life_frac" (mkRat 1 5) (mkRat 4 5) 20) ∧
     (mkIndicators ops0 Tc2 "s" "engine_id" "life_frac" (mkRat 1 5) (mkRat 4 5) 20).abs_slope
        = meanIgnoringNan ((slopes Tc2 "s" "engine_id" "life_frac" (mkRat 1 5) (mkRat 4 5) 20).map EF.abs) ∧
     meanIgnoringNan ([] : List EF) = .nan) :=
  ⟨by decide,
   aggregates_are_nan_only_means ops0 Tc2 "s" "engine_id" "life_frac"
     (mkRat 1 5) (mkRat 4 5) 20
     (mkIndicators ops0 Tc2 "s" "engine_id" "life_frac" (mkRat 1 5) (mkRat 4 5) 20)
     (by decide)⟩

/-- The first index of a column appended to a frame that lacked it. -/
theorem findIdx?_append_self (l : List String) (c : String) (h : c ∉ l) :
    (l ++ [c]).findIdx? (· == c) = some l.length := by
  rw [List.findIdx?_append]
  have hn : l.findIdx? (· == c) = none :=
    List.findIdx?_eq_none_iff.mpr (fun x hx => by
      simp only [beq_eq_false_iff_ne, ne_eq]
      intro he
      subst he
      exact h hx)
  rw [hn]
  simp

/-- Column extraction through a known column index. -/
theorem getCol_eq_of_findIdx {t : Table} {c : String} {j : Nat}
    (h : t.cols.findIdx? (· == c) = some j) :
    t.getCol c = t.rows.map (fun r => r.getD j EF.nan) := by
  unfold Table.getCol
  rw [h]

/-- A present column has an index. -/
theorem hasCol_findIdx {t : Table} {c : String} (h : t.hasCol c = true) :
    ∃ j, t.cols.findIdx? (· == c) = some j := by
  have hmem : c ∈ t.cols := by simpa [Table.hasCol] using h
  have hany : t.cols.any (· == c) = true := List.any_eq_true.mpr ⟨c, hmem, by simp⟩
  have hsome : (t.cols.findIdx? (· == c)).isSome = true := by
    rw [List.findIdx?_isSome, hany]
  exact Option.isSome_iff_exists.mp hsome

/-- C8 counterexample: on a frame whose `life_frac` column already exists
(filled with 0), `ensure_life_frac` returns the frame unchanged, so the row
with the maximum cycle (1 > 0) keeps `life_frac = 0 ≠ 1`. -/
theorem life_frac_max_cycle_counterexample :
    ensure_life_frac Tc8 "engine_id" "cycle" "life_frac" = .ok Tc8 ∧
    (Tc8.getCol "engine_id").getD 0 .nan = .fin 1 ∧
    efMaxSkipNan (cyclesOf Tc8 "engine_id" "cycle" (.fin 1)) = .fin 1 ∧
    (0 : ℚ) < 1 ∧
    (Tc8.getCol "cycle").getD 0 .nan = .fin 1 ∧
    (Tc8.getCol "life_frac").getD 0 .nan = .fin 0 ∧
    (EF.fin 0 : EF) ≠ .fin 1 := by decide

/-- C8 (amended): after `ensure_life_frac` on a well-formed frame that does
NOT already carry the output column, every engine (a non-NaN key) whose
maximum cycle is a finite `m > 0` receives `life_frac` exactly 1 at each of
its rows whose cycle equals `m`.  (The counterexample above shows the
original claim fails when the column pre-exists, because of the idempotent
short-circuit.) -/
theorem life_frac_at_max_cycle_one
    (df : Table) (ec cc oc : String) (t : Table) (k : EF) (m : ℚ) (i : Nat)
    (hwf : df.wf = true)
    (habs : df.hasCol oc = false)
    (hok : ensure_life_frac df ec cc oc = .ok t)
    (hkn : k.isNan = false)
    (hmax : efMaxSkipNan (cyclesOf df ec cc k) = .fin m)
    (hm : 0 < m)
    (hei : (df.getCol ec).getD i .nan = k)
    (hci : (df.getCol cc).getD i .nan = .fin m) :
    (t.getCol oc).getD i .nan = .fin 1 := by
  -- the successful call produced the extended frame
  unfold ensure_life_frac at hok
  rw [if_neg (by simp [habs])] at hok
  by_cases hec : df.hasCol ec = false
  · rw [if_pos hec] at hok
    exact absurd hok (by simp)
  rw [if_neg hec] at hok
  by_cases hcc : df.hasCol cc = false
  · rw [if_pos hcc] at hok
    exact absurd hok (by simp)
  rw [if_neg hcc] at hok
  obtain rfl := (Except.ok.inj hok)
  -- row lengths
  rw [Table.wf] at hwf
  have hrowlen : ∀ r ∈ df.rows, r.length = df.cols.length := by
    intro r hr
    simpa using List.all_eq_true.mp hwf r hr
  -- column indices of the two source columns
  obtain ⟨jec, hjec⟩ := hasCol_findIdx (by simpa using hec)
  obtain ⟨jcc, hjcc⟩ := hasCol_findIdx (by simpa using hcc)
  have hlenec : (df.getCol ec).length = df.rows.length := by
    rw [getCol_eq_of_findIdx hjec, List.length_map]
  have hlencc : (df.getCol cc).length = df.rows.length := by
    rw [getCol_eq_of_findIdx hjcc, List.length_map]
  -- the addressed row exists
  have hin : i < df.rows.length := by
    by_contra hge
    push_neg at hge
    have hnone : (df.getCol ec)[i]? = none := List.getElem?_eq_none (by omega)
    rw [List.getD_eq_getElem?_getD, hnone, Option.getD_none] at hei
    rw [← hei] at hkn
    simp [EF.isNan] at hkn
  have hEi : (df.getCol ec)[i]? = some k := by
    have hlt : i < (df.getCol ec).length := by omega
    rw [List.getD_eq_getElem?_getD, List.getElem?_eq_getElem hlt, Option.getD_some] at hei
    rw [List.getElem?_eq_getElem hlt, hei]
  have hCi : (df.getCol cc)[i]? = some (.fin m) := by
    have hlt : i < (df.getCol cc).length := by omega
    rw [List.getD_eq_getElem?_getD, List.getElem?_eq_getElem hlt, Option.getD_some] at hci
    rw [List.getElem?_eq_getElem hlt, hci]
  -- the computed life_frac cell of row i is m / m = 1
  have hv : (EF.fin m).div (.fin m) = .fin 1 := by
    simp only [EF.div]
    rw [if_neg hm.ne', qdiv_eq, div_self hm.ne']
  have hzip : ((df.getCol ec).zip (df.getCol cc))[i]? = some (k, .fin m) :=
    List.getElem?_zip_eq_some.mpr ⟨hEi, hCi⟩
  have hlfi : (lifeFracList df ec cc)[i]? = some (EF.fin 1) := by
    unfold lifeFracList
    rw [List.getElem?_map, hzip]
    simp only [Option.map_some', hkn, Bool.false_eq_true, if_false, hmax, hv]
  -- read the appended column
  have hfind : (df.cols ++ [oc]).findIdx? (· == oc) = some df.cols.length :=
    findIdx?_append_self df.cols oc (by simpa [Table.hasCol] using habs)
  have hrowi : df.rows[i]? = some df.rows[i] := List.getElem?_eq_getElem hin
  have hzip2 : (df.rows.zip (lifeFracList df ec cc))[i]? = some (df.rows[i], EF.fin 1) :=
    List.getElem?_zip_eq_some.mpr ⟨hrowi, hlfi⟩
  have hcol : Table.getCol ⟨df.cols ++ [oc],
      (df.rows.zip (lifeFracList df ec cc)).map (fun p => p.1 ++ [p.2])⟩ oc
      = ((df.rows.zip (lifeFracList df ec cc)).map (fun p => p.1 ++ [p.2])).map
          (fun r => r.getD df.cols.length EF.nan) :=
    getCol_eq_of_findIdx hfind
  rw [hcol, List.getD_eq_getElem?_getD, List.getElem?_map, List.getElem?_map, hzip2]
  simp only [Option.map_some', Option.getD_some]
  have hrl : df.rows[i].length = df.cols.length := hrowlen _ (df.rows.getElem_mem hin)
  rw [List.getD_eq_getElem?_getD, ← hrl, List.getElem?_concat_length, Option.getD_some]

/-- Witness for the amended C8 theorem: the two-row one-engine frame `Tw8`
(cycles 1 and 2) gets `life_frac = 1` at its maximum-cycle row (index 1). -/
theorem life_frac_at_max_cycle_one_witness :
    Tw8.wf = true ∧ Tw8.hasCol "life_frac" = false ∧
    ensure_life_frac Tw8 "engine_id" "cycle" "life_frac" = .ok Tw8out ∧
    efMaxSkipNan (cyclesOf Tw8 "engine_id" "cycle" (.fin 1)) = .fin 2 ∧
    (Tw8out.getCol "life_frac").getD 1 .nan = .fin 1 :=
  ⟨by decide, by decide, by decide, by decide,
   life_frac_at_max_cycle_one Tw8 "engine_id" "cycle" "life_frac" Tw8out
     (.fin 1) 2 1 (by decide) (by decide) (by decide) (by decide) (by decide)
     (by norm_num) (by decide) (by decide)⟩

/-- Witness for the C3 theorem: a frame with no rows, whose pooled baseline
standard deviation is NaN. -/
theorem undefined_baseline_yields_undefined_normalized_fields_witness :
    (baseline_raw ops0 Tempty "s" "life_frac" (mkRat 1 5)).isFinite = false ∧
    ((mkIndicators ops0 Tempty "s" "engine_id" "life_frac" (mkRat 1 5) (mkRat 4 5) 20).baseline_std_early = .nan ∧
     (mkIndicators ops0 Tempty "s" "engine_id" "life_frac" (mkRat 1 5) (mkRat 4 5) 20).mean_shift_std = .nan ∧
     (mkIndicators ops0 Tempty "s" "engine_id" "life_frac" (mkRat 1 5) (mkRat 4 5) 20).abs_mean_shift_std = .nan ∧
     (mkIndicators ops0 Tempty "s" "engine_id" "life_frac" (mkRat 1 5) (mkRat 4 5) 20).slope_std = .nan ∧
     (mkIndicators ops0 Tempty "s" "engine_id" "life_frac" (mkRat 1 5) (mkRat 4 5) 20).abs_slope_std = .nan) :=
  ⟨by decide,
   undefined_baseline_yields_undefined_normalized_fields ops0 Tempty "s" "engine_id"
     "life_frac" (mkRat 1 5) (mkRat 4 5) 20
     (mkIndicators ops0 Tempty "s" "engine_id" "life_frac" (mkRat 1 5) (mkRat 4 5) 20)
     (by decide) (Or.inl (by decide))⟩

end RD




